import Mathlib

/-!
Shallow embedding of the VNLS-PRESS news backend
(supabase/functions/fetch-news/index.ts and supabase/functions/bert_search/index.ts).

The two Deno handlers are embedded as pure Lean functions.  External effects
(auth lookup, database queries, the embedding provider, the imported
cosineSimilarity library function, the pgvector distance operator) are
modelled as explicit parameters / environment fields, and the list of
external calls a request performs is returned as an explicit trace.
Machine numbers are modelled as rationals; activity weights, which are
always small positive integers in the source, as naturals.
-/

/-! ### JavaScript string primitives used by the handlers -/

/-- Outcomes of external calls are compared in concrete examples. -/
instance {ε α : Type} [DecidableEq ε] [DecidableEq α] :
    DecidableEq (Except ε α) := fun x y =>
  match x, y with
  | Except.ok a, Except.ok b =>
    if h : a = b then isTrue (by rw [h])
    else isFalse (by intro hc; injection hc; exact h ‹_›)
  | Except.error a, Except.error b =>
    if h : a = b then isTrue (by rw [h])
    else isFalse (by intro hc; injection hc; exact h ‹_›)
  | Except.ok _, Except.error _ => isFalse (by intro hc; cases hc)
  | Except.error _, Except.ok _ => isFalse (by intro hc; cases hc)

/-- Character-list version of JS `String.prototype.startsWith`:
`listStartsWith hay needle` is true when `needle` is an initial segment of `hay`. -/
def listStartsWith : List Char → List Char → Bool
  | _, [] => true
  | [], _ :: _ => false
  | a :: as, b :: bs => a == b && listStartsWith as bs

/-- Character-list version of JS `String.prototype.includes` (substring test). -/
def hasSubstr : List Char → List Char → Bool
  | [], needle => needle.isEmpty
  | a :: t, needle => listStartsWith (a :: t) needle || hasSubstr t needle

/-- JS `hay.includes(needle)` on strings. -/
def jsIncludes (hay needle : String) : Bool :=
  hasSubstr hay.data needle.data

/-- JS `String.prototype.trim`: strip whitespace from both ends. -/
def jsTrim (s : String) : String :=
  ⟨((s.data.dropWhile Char.isWhitespace).reverse.dropWhile Char.isWhitespace).reverse⟩

/-- Remove the first occurrence of `needle` from `hay`
(JS `hay.replace(needle, "")` with a string pattern replaces only the first hit). -/
def removeFirst (hay needle : List Char) : List Char :=
  match hay with
  | [] => []
  | c :: rest =>
    if listStartsWith (c :: rest) needle then (c :: rest).drop needle.length
    else c :: removeFirst rest needle

/-- JS `authHeader.replace("Bearer ", "")`. -/
def stripBearer (s : String) : String :=
  ⟨removeFirst s.data "Bearer ".data⟩

/-- JS `a || b` on strings (empty string is falsy). -/
def jsOr (a b : String) : String :=
  if a = "" then b else a

/-- ASCII lower-casing of one character (the behaviour of JS
`toLowerCase` on the ASCII range). -/
def asciiLower (c : Char) : Char :=
  if 65 ≤ c.toNat ∧ c.toNat ≤ 90 then Char.ofNat (c.toNat + 32) else c

/-- JS `String.prototype.toLowerCase` (ASCII model). -/
def jsToLower (s : String) : String :=
  ⟨s.data.map asciiLower⟩

/-! ### fetch-news: article transformation (fetch-news/index.ts, lines 77-95) -/

/-- Shape of an article as delivered by NewsAPI (fields the transform reads). -/
structure NewsAPIArticle where
  title : String
  description : String
  url : String
  urlToImage : String
  sourceName : String
  publishedAt : String
  content : String
deriving DecidableEq

/-- Shape of an article after the fetch-news transform. -/
structure TransformedArticle where
  id : String
  title : String
  summary : String
  content : String
  url : String
  image_url : String
  source : String
  category : String
  language : String
  published_at : String
deriving DecidableEq

/-- Category assignment of the fetch-news transform (line 92):
`article.title.toLowerCase().includes("sport") ? "sports" : "technology"`. -/
def classifyCategory (title : String) : String :=
  if jsIncludes (jsToLower title) "sport" then "sports" else "technology"

/-- Keep only ASCII alphanumeric characters
(JS `.replace(/[^a-zA-Z0-9]/g, "")`). -/
def stripNonAlnum (s : String) : String :=
  ⟨s.data.filter (fun c => c.isAlphanum)⟩

/-- The fetch-news transform (lines 77-95).  `btoaId` stands for the ambient
JS `btoa` base64 encoder, an external runtime builtin. -/
def transformArticles (btoaId : String → String) (raws : List NewsAPIArticle) :
    List TransformedArticle :=
  (raws.filter (fun a =>
      !(a.title == "") && !(a.description == "") && !(a.url == "") &&
        !(a.title == "[Removed]"))).map
    (fun a =>
      { id := ((stripNonAlnum (btoaId a.url)).data.take 20 : List Char) |> List.asString
        title := a.title
        summary := jsOr a.description a.title
        content := jsOr a.content (jsOr a.description "")
        url := a.url
        image_url := jsOr a.urlToImage ""
        source := a.sourceName
        category := classifyCategory a.title
        language := "en"
        published_at := a.publishedAt })

/-! ### generate-recommendations: preference aggregation (lines 190-220) -/

/-- One row of `user_activities` as consumed by the handler
(the `metadata` object is flattened into its two read fields). -/
structure UserActivity where
  article_id : String
  activity_type : String
  dwell_time : ℚ
  article_category : String
  article_source : String
deriving DecidableEq

/-- Activity weighting (lines 199-202):
`let weight = 1; if click 3; else if bookmark 5; else if dwell && dwell_time > 30 then 2`. -/
def activityWeight (a : UserActivity) : ℕ :=
  if a.activity_type = "click" then 3
  else if a.activity_type = "bookmark" then 5
  else if a.activity_type = "dwell" ∧ 30 < a.dwell_time then 2
  else 1

/-- `map.set(k, (map.get(k) || 0) + w)` on a JS `Map` kept as an
insertion-ordered association list: updating an existing key keeps its
position, a new key is appended. -/
def bump (m : List (String × ℕ)) (k : String) (w : ℕ) : List (String × ℕ) :=
  match m with
  | [] => [(k, w)]
  | (k', v) :: rest => if k' = k then (k', v + w) :: rest else (k', v) :: bump rest k w

/-- The preference-analysis loop (lines 190-209): one pass over the activity
rows, bumping the category map and the source map by the activity's weight. -/
def analyzePreferences (acts : List UserActivity) :
    List (String × ℕ) × List (String × ℕ) :=
  acts.foldl
    (fun ms a =>
      (bump ms.1 a.article_category (activityWeight a),
       bump ms.2 a.article_source (activityWeight a)))
    ([], [])

/-- Comparator of the JS sort `(a, b) => b[1] - a[1]`: descending by weight. -/
def byWeightDesc (p q : String × ℕ) : Prop := q.2 ≤ p.2

instance : DecidableRel byWeightDesc := fun p q => Nat.decLe q.2 p.2

instance : IsTotal (String × ℕ) byWeightDesc :=
  ⟨fun p q => Nat.le_total q.2 p.2⟩

instance : IsTrans (String × ℕ) byWeightDesc :=
  ⟨fun _ _ _ h₁ h₂ => le_trans h₂ h₁⟩

/-- The entries of a preference map sorted by descending weight
(JS `Array.prototype.sort` is stable; `List.insertionSort` is the stable
sort with the same comparator). -/
def rankedEntries (m : List (String × ℕ)) : List (String × ℕ) :=
  m.insertionSort byWeightDesc

/-- `.sort(...).slice(0, 3).map(([k]) => k)` (lines 212-220). -/
def topLabels (m : List (String × ℕ)) : List String :=
  ((rankedEntries m).take 3).map Prod.fst

/-- Index of the first activity whose label equals `c`
("first encountered in the input order"). -/
def firstEncounterIdx (labels : List String) (c : String) : ℕ :=
  labels.findIdx (fun x => x == c)

/-- Replay a sequence of `(label, weight)` updates against a map:
the loop of `analyzePreferences` specialised to one of its two maps. -/
def bumpFold (m : List (String × ℕ)) : List (String × ℕ) → List (String × ℕ)
  | [] => m
  | p :: rest => bumpFold (bump m p.1 p.2) rest

/-- The labels of `ls` not yet in `seen`, in order of first occurrence:
the key order a JS `Map` ends up with after the aggregation loop. -/
def newKeys (seen : List String) : List String → List String
  | [] => []
  | k :: ks => if k ∈ seen then newKeys seen ks else k :: newKeys (seen ++ [k]) ks

/-! ### generate-recommendations: candidate scoring (lines 253-277) -/

/-- A row of `news_articles` as read by the scorer.  `published_at` is the
epoch-millisecond timestamp `new Date(article.published_at).getTime()`. -/
structure Article where
  id : String
  title : String
  category : String
  source : String
  published_at : ℚ
deriving DecidableEq

/-- An article together with its recommendation score (the JS spread
`{ ...article, score }`). -/
structure ScoredArticle extends Article where
  score : ℚ
deriving DecidableEq

/-- The per-article score accumulation (lines 255-274).  `nowMs` is
`Date.now()`. -/
def articleScore (topCats topSrcs : List String) (a : Article) (nowMs : ℚ) : ℚ :=
  let s0 : ℚ := 0
  let s1 : ℚ :=
    match topCats.findIdx? (fun c => c == a.category) with
    | some i => s0 + ((3 : ℚ) - (i : ℚ)) * 10
    | none => s0
  let s2 : ℚ :=
    match topSrcs.findIdx? (fun s => s == a.source) with
    | some i => s1 + ((3 : ℚ) - (i : ℚ)) * 5
    | none => s1
  let ageHours : ℚ := (nowMs - a.published_at) / (1000 * 60 * 60)
  s2 + max 0 (24 - ageHours)

/-- Comparator of `(a, b) => b.score - a.score`: descending by score. -/
def byScoreDesc (p q : ScoredArticle) : Prop := q.score ≤ p.score

instance : DecidableRel byScoreDesc :=
  fun p q => inferInstanceAs (Decidable (q.score ≤ p.score))

instance : IsTotal ScoredArticle byScoreDesc :=
  ⟨fun p q => le_total q.score p.score⟩

instance : IsTrans ScoredArticle byScoreDesc :=
  ⟨fun _ _ _ h₁ h₂ => le_trans h₂ h₁⟩

/-- The scoring pipeline (lines 253-277): drop already-interacted articles,
score the rest, sort descending by score (stable), keep the first 20. -/
def recommendArticles (interactedIds : List String) (recent : List Article)
    (topCats topSrcs : List String) (nowMs : ℚ) : List ScoredArticle :=
  ((((recent.filter (fun a => !(interactedIds.contains a.id))).map
        (fun a => { toArticle := a, score := articleScore topCats topSrcs a nowMs
                    : ScoredArticle })).insertionSort byScoreDesc).take 20)

/-! ### Spec-side scoring components (section 4.2 of the specification);
used only to compare the source scoring against the specification text. -/

/-- Spec wording: categoryScore is `(3 - i) * 10` when the category sits at
0-indexed rank `i` of the top-categories list, else 0. -/
def categoryScoreSpec (topCats : List String) (cat : String) : ℚ :=
  match topCats.findIdx? (fun c => c == cat) with
  | some i => ((3 : ℚ) - (i : ℚ)) * 10
  | none => 0

/-- Spec wording: sourceScore is `(3 - i) * 5` at rank `i`, else 0. -/
def sourceScoreSpec (topSrcs : List String) (src : String) : ℚ :=
  match topSrcs.findIdx? (fun s => s == src) with
  | some i => ((3 : ℚ) - (i : ℚ)) * 5
  | none => 0

/-- Spec wording: recencyScore is `max(0, 24 - ageInHours)`. -/
def recencyScoreSpec (pubMs nowMs : ℚ) : ℚ :=
  max 0 (24 - (nowMs - pubMs) / (1000 * 60 * 60))

/-! ### generate-recommendations: the full handler (lines 142-302) -/

/-- Authenticated user as returned by the auth backend. -/
structure AuthUser where
  id : String
deriving DecidableEq

/-- A JS runtime exception reaching the outer `catch`. -/
inductive JsError
  | typeError (msg : String)
deriving DecidableEq

/-- External-call outcomes a recommendation request observes:
the auth lookup, the three database queries, and the current time. -/
structure RecEnv where
  getUser : String → Option AuthUser
  activitiesResult : Except String (List UserActivity)
  recentResult : Except String (List Article)
  interactedResult : Option (List String)
  nowMs : ℚ

/-- The distinct responses the handler can produce. -/
inductive RecResponse
  | ok (recs : List ScoredArticle) (topCats topSrcs : List String)
  | unauthorized
  | activitiesFetchError
  | articlesFetchError
  | internalError
deriving DecidableEq

/-- Body of the handler's `try` block.  A `none` Authorization header makes
`authHeader.replace("Bearer ", "")` throw a TypeError (the `!` in
`req.headers.get("Authorization")!` is only a type assertion). -/
def runRecommend (env : RecEnv) (authHeader : Option String) :
    Except JsError RecResponse :=
  match authHeader with
  | none => Except.error (JsError.typeError "Cannot read properties of null")
  | some h =>
    let token := stripBearer h
    match env.getUser token with
    | none => Except.ok RecResponse.unauthorized
    | some _user =>
      match env.activitiesResult with
      | Except.error _ => Except.ok RecResponse.activitiesFetchError
      | Except.ok acts =>
        let prefs := analyzePreferences acts
        let topCats := topLabels prefs.1
        let topSrcs := topLabels prefs.2
        match env.recentResult with
        | Except.error _ => Except.ok RecResponse.articlesFetchError
        | Except.ok recent =>
          let interactedIds := env.interactedResult.getD []
          Except.ok (RecResponse.ok
            (recommendArticles interactedIds recent topCats topSrcs env.nowMs)
            topCats topSrcs)

/-- The generate-recommendations handler: the `try` body with the outer
`catch` returning the generic 500 response. -/
def generateRecommendations (env : RecEnv) (authHeader : Option String) :
    RecResponse :=
  match runRecommend env authHeader with
  | Except.ok r => r
  | Except.error _ => RecResponse.internalError

/-! ### bert_search: semantic search handler (bert_search/index.ts) -/

/-- Parsed request body: `{ query?: string, top_k?: number }`. -/
structure RequestBody where
  query : Option String
  top_k : Option ℕ
deriving DecidableEq

/-- A `news_articles` row as seen by the server-side `match_news` RPC
(every row carries an embedding vector there). -/
structure DbRow where
  id : String
  title : String
  url : String
  category : String
  source : String
  published_at : String
  embedding : List ℚ
deriving DecidableEq

/-- A candidate row fetched by the in-memory fallback path; the embedding
column may be null. -/
structure SearchCandidate where
  id : String
  title : String
  url : String
  category : String
  source : String
  published_at : String
  embedding : Option (List ℚ)
deriving DecidableEq

/-- A search hit: article fields plus the similarity score
(named `similarity` on the RPC path and `score` on the fallback path). -/
structure SearchResult where
  id : String
  title : String
  url : String
  category : String
  source : String
  published_at : String
  score : ℚ
deriving DecidableEq

/-- Comparator of `(x, y) => y.score - x.score`: descending by score. -/
def byScoreDescR (p q : SearchResult) : Prop := q.score ≤ p.score

instance : DecidableRel byScoreDescR :=
  fun p q => inferInstanceAs (Decidable (q.score ≤ p.score))

instance : IsTotal SearchResult byScoreDescR :=
  ⟨fun p q => le_total q.score p.score⟩

instance : IsTrans SearchResult byScoreDescR :=
  ⟨fun _ _ _ h₁ h₂ => le_trans h₂ h₁⟩

/-- The `match_news` RPC defined in the function's setup SQL:
order all rows by pgvector distance to the query embedding (ascending,
i.e. similarity `1 - dist` descending) and keep `match_count` rows.
`dist` stands for the external pgvector `<=>` operator. -/
def matchNews (dist : List ℚ → List ℚ → ℚ) (rows : List DbRow)
    (qe : List ℚ) (matchCount : ℕ) : List SearchResult :=
  ((rows.map (fun r =>
      { id := r.id, title := r.title, url := r.url, category := r.category
        source := r.source, published_at := r.published_at
        score := 1 - dist qe r.embedding : SearchResult })).insertionSort
    byScoreDescR).take matchCount

/-- The fallback scoring map (lines 127-138): keep candidates with an
embedding, score each by `cosineSimilarity`, and degrade a per-item
exception to score 0.  `sim` stands for the imported `cosineSimilarity`
library function, `Except.error` for a thrown exception. -/
def fallbackScores (sim : List ℚ → List ℚ → Except String ℚ) (qe : List ℚ)
    (cands : List SearchCandidate) : List SearchResult :=
  (cands.filter (fun a => a.embedding.isSome)).map (fun a =>
    let s : ℚ :=
      match a.embedding with
      | some emb =>
        match sim qe emb with
        | Except.ok v => v
        | Except.error _ => 0
      | none => 0
    { id := a.id, title := a.title, url := a.url, category := a.category
      source := a.source, published_at := a.published_at, score := s })

/-- Fallback scores sorted descending (line 139). -/
def sortedFallback (sim : List ℚ → List ℚ → Except String ℚ) (qe : List ℚ)
    (cands : List SearchCandidate) : List SearchResult :=
  (fallbackScores sim qe cands).insertionSort byScoreDescR

/-- Fallback result list: sorted scores truncated to `top_k` (line 140). -/
def scoredFallback (sim : List ℚ → List ℚ → Except String ℚ) (qe : List ℚ)
    (cands : List SearchCandidate) (k : ℕ) : List SearchResult :=
  (sortedFallback sim qe cands).take k

/-- External calls the handler can issue. -/
inductive ExtCall
  | embed (q : String)
  | rpc
  | fetchCandidates
deriving DecidableEq

/-- The two response shapes of the handler. -/
inductive BertResponse
  | success (recs : List SearchResult)
  | serverError (detail : String)
deriving DecidableEq

/-- External-call outcomes a search request observes. -/
structure SearchEnv where
  embedResult : Except String (List ℚ)
  rpcOk : Bool
  dbRows : List DbRow
  dist : List ℚ → List ℚ → ℚ
  candidatesResult : Except String (List SearchCandidate)
  sim : List ℚ → List ℚ → Except String ℚ

/-- The fallback branch (lines 112-142): fetch candidates (a thrown query
error reaches the outer catch as a 500), return empty on an empty pool,
otherwise score in memory. -/
def fallbackPart (env : SearchEnv) (qe : List ℚ) (k : ℕ) : BertResponse :=
  match env.candidatesResult with
  | Except.error e => BertResponse.serverError e
  | Except.ok cands =>
    if cands.isEmpty then BertResponse.success []
    else BertResponse.success (scoredFallback env.sim qe cands k)

/-- The bert_search handler (lines 76-148), returning the response and the
trace of external calls.  The RPC is attempted on every non-blank request
whose embedding succeeded; the RPC result is used only when the call
succeeded and produced a non-empty array. -/
def bertSearch (env : SearchEnv) (body : RequestBody) :
    BertResponse × List ExtCall :=
  let q := jsTrim (body.query.getD "")
  let k := body.top_k.getD 10
  if q = "" then (BertResponse.success [], [])
  else
    match env.embedResult with
    | Except.error _ =>
      (BertResponse.serverError "Internal server error", [ExtCall.embed q])
    | Except.ok qe =>
      let rpcRows : Option (List SearchResult) :=
        if env.rpcOk then some (matchNews env.dist env.dbRows qe k) else none
      match rpcRows with
      | some rows =>
        if 0 < rows.length then
          (BertResponse.success rows, [ExtCall.embed q, ExtCall.rpc])
        else
          (fallbackPart env qe k,
           [ExtCall.embed q, ExtCall.rpc, ExtCall.fetchCandidates])
      | none =>
        (fallbackPart env qe k,
         [ExtCall.embed q, ExtCall.rpc, ExtCall.fetchCandidates])

/-! ### Concrete inputs used by example-based claims -/

/-- The worked example of the specification:
technology click, technology view, sports bookmark. -/
def exampleActivities : List UserActivity :=
  [⟨"a1", "click", 0, "technology", "s1"⟩,
   ⟨"a2", "view", 0, "technology", "s2"⟩,
   ⟨"a3", "bookmark", 0, "sports", "s3"⟩]

/-- A similarity oracle for the fallback path: throws on the embedding
`[1, 2]` (dimension mismatch with the query), returns -1 on `[-1]`,
and 2 otherwise. -/
def cexSim : List ℚ → List ℚ → Except String ℚ :=
  fun _ e =>
    if e = [1, 2] then Except.error "vectors must be of equal length"
    else if e = [-1] then Except.ok (-1)
    else Except.ok 2

/-- Candidate whose similarity computation throws under `cexSim`. -/
def cexA : SearchCandidate :=
  ⟨"A", "tA", "uA", "cA", "sA", "pA", some [1, 2]⟩

/-- Candidate whose similarity computes successfully to -1 under `cexSim`. -/
def cexB : SearchCandidate :=
  ⟨"B", "tB", "uB", "cB", "sB", "pB", some [-1]⟩

/-- Candidate whose similarity computes successfully to 1/2 under `cexSim`. -/
def cexC : SearchCandidate :=
  ⟨"C", "tC", "uC", "cC", "sC", "pC", some [1]⟩

/-- Embed a fallback candidate with an explicit score
(the shape produced by the fallback map). -/
def resultOf (c : SearchCandidate) (s : ℚ) : SearchResult :=
  ⟨c.id, c.title, c.url, c.category, c.source, c.published_at, s⟩

/-! ### Helper lemmas -/

theorem activityWeight_pos (a : UserActivity) : 0 < activityWeight a := by
  unfold activityWeight
  split_ifs <;> norm_num

theorem bump_pos {k : String} {w : ℕ} (hw : 0 < w) :
    ∀ m : List (String × ℕ), (∀ p ∈ m, 0 < p.2) → ∀ p ∈ bump m k w, 0 < p.2 := by
  intro m
  induction m with
  | nil =>
    intro _ p hp
    simp only [bump, List.mem_singleton] at hp
    subst hp
    exact hw
  | cons hd tl ih =>
    intro hm p hp
    obtain ⟨k', v⟩ := hd
    simp only [bump] at hp
    by_cases h : k' = k
    · rw [if_pos h] at hp
      rcases List.mem_cons.mp hp with h1 | h1
      · subst h1
        exact Nat.lt_of_lt_of_le hw (Nat.le_add_left w v)
      · exact hm p (List.mem_cons_of_mem _ h1)
    · rw [if_neg h] at hp
      rcases List.mem_cons.mp hp with h1 | h1
      · subst h1
        exact hm (k', v) (List.mem_cons_self _ _)
      · exact ih (fun q hq => hm q (List.mem_cons_of_mem _ hq)) p h1

theorem analyzePreferences_loop_pos (acts : List UserActivity) :
    ∀ cm sm : List (String × ℕ),
      (∀ p ∈ cm, 0 < p.2) → (∀ p ∈ sm, 0 < p.2) →
      (∀ p ∈ (acts.foldl (fun ms a =>
          (bump ms.1 a.article_category (activityWeight a),
           bump ms.2 a.article_source (activityWeight a))) (cm, sm)).1, 0 < p.2) ∧
      (∀ p ∈ (acts.foldl (fun ms a =>
          (bump ms.1 a.article_category (activityWeight a),
           bump ms.2 a.article_source (activityWeight a))) (cm, sm)).2, 0 < p.2) := by
  induction acts with
  | nil =>
    intro cm sm h1 h2
    exact ⟨h1, h2⟩
  | cons a rest ih =>
    intro cm sm h1 h2
    simp only [List.foldl_cons]
    exact ih _ _ (bump_pos (activityWeight_pos a) cm h1)
      (bump_pos (activityWeight_pos a) sm h2)

theorem foldl_pair_split (acts : List UserActivity) :
    ∀ cm sm : List (String × ℕ),
      acts.foldl (fun ms a =>
          (bump ms.1 a.article_category (activityWeight a),
           bump ms.2 a.article_source (activityWeight a))) (cm, sm) =
        (bumpFold cm (acts.map fun a => (a.article_category, activityWeight a)),
         bumpFold sm (acts.map fun a => (a.article_source, activityWeight a))) := by
  induction acts with
  | nil => intro cm sm; rfl
  | cons a rest ih =>
    intro cm sm
    simp only [List.foldl_cons, List.map_cons, bumpFold]
    exact ih _ _

theorem analyzePreferences_eq (acts : List UserActivity) :
    analyzePreferences acts =
      (bumpFold [] (acts.map fun a => (a.article_category, activityWeight a)),
       bumpFold [] (acts.map fun a => (a.article_source, activityWeight a))) :=
  foldl_pair_split acts [] []

theorem bump_keys (k : String) (w : ℕ) :
    ∀ m : List (String × ℕ),
      (bump m k w).map Prod.fst =
        if k ∈ m.map Prod.fst then m.map Prod.fst else m.map Prod.fst ++ [k] := by
  intro m
  induction m with
  | nil => simp [bump]
  | cons hd tl ih =>
    obtain ⟨k', v⟩ := hd
    by_cases h : k' = k
    · subst h
      simp [bump]
    · simp only [bump, if_neg h, List.map_cons]
      rw [ih]
      by_cases hmem : k ∈ tl.map Prod.fst
      · rw [if_pos hmem, if_pos (by simp [hmem])]
      · rw [if_neg hmem, if_neg (by simp [hmem, Ne.symm h])]
        simp

theorem bumpFold_keys :
    ∀ (ps : List (String × ℕ)) (m : List (String × ℕ)),
      (bumpFold m ps).map Prod.fst =
        m.map Prod.fst ++ newKeys (m.map Prod.fst) (ps.map Prod.fst) := by
  intro ps
  induction ps with
  | nil => intro m; simp [bumpFold, newKeys]
  | cons p rest ih =>
    intro m
    simp only [bumpFold, List.map_cons, newKeys]
    by_cases h : p.1 ∈ m.map Prod.fst
    · rw [if_pos h]
      rw [ih (bump m p.1 p.2), bump_keys, if_pos h]
    · rw [if_neg h]
      rw [ih (bump m p.1 p.2), bump_keys, if_neg h]
      simp

theorem mem_newKeys_not_seen :
    ∀ (ls seen : List String) (k : String), k ∈ newKeys seen ls → k ∉ seen := by
  intro ls
  induction ls with
  | nil => intro seen k hk; simp [newKeys] at hk
  | cons k' ks ih =>
    intro seen k hk
    simp only [newKeys] at hk
    by_cases h : k' ∈ seen
    · rw [if_pos h] at hk
      exact ih seen k hk
    · rw [if_neg h] at hk
      rcases List.mem_cons.mp hk with h1 | h1
      · subst h1; exact h
      · intro hks
        exact ih (seen ++ [k']) k h1 (by simp [hks])

theorem newKeys_order :
    ∀ (ls seen : List String) (a b : String),
      List.Sublist [a, b] (newKeys seen ls) →
      ls.findIdx (fun x => x == a) < ls.findIdx (fun x => x == b) := by
  intro ls
  induction ls with
  | nil =>
    intro seen a b h
    simp only [newKeys] at h
    cases h
  | cons k ks ih =>
    intro seen a b h
    simp only [newKeys] at h
    by_cases hk : k ∈ seen
    · rw [if_pos hk] at h
      have ha : a ∈ newKeys seen ks := h.subset (by simp)
      have hb : b ∈ newKeys seen ks := h.subset (by simp)
      have hak : (k == a) = false :=
        beq_eq_false_iff_ne.mpr (fun he => mem_newKeys_not_seen ks seen a ha (he ▸ hk))
      have hbk : (k == b) = false :=
        beq_eq_false_iff_ne.mpr (fun he => mem_newKeys_not_seen ks seen b hb (he ▸ hk))
      simp only [List.findIdx_cons, hak, hbk, cond_false]
      exact Nat.succ_lt_succ (ih seen a b h)
    · rw [if_neg hk] at h
      cases h with
      | cons _ htail =>
        have ha : a ∈ newKeys (seen ++ [k]) ks := htail.subset (by simp)
        have hb : b ∈ newKeys (seen ++ [k]) ks := htail.subset (by simp)
        have hak : (k == a) = false :=
          beq_eq_false_iff_ne.mpr
            (fun he => mem_newKeys_not_seen ks (seen ++ [k]) a ha (by simp [he]))
        have hbk : (k == b) = false :=
          beq_eq_false_iff_ne.mpr
            (fun he => mem_newKeys_not_seen ks (seen ++ [k]) b hb (by simp [he]))
        simp only [List.findIdx_cons, hak, hbk, cond_false]
        exact Nat.succ_lt_succ (ih (seen ++ [k]) a b htail)
      | cons₂ _ htail =>
        have hb : b ∈ newKeys (seen ++ [k]) ks := htail.subset (by simp)
        have hbk : (k == b) = false :=
          beq_eq_false_iff_ne.mpr
            (fun he => mem_newKeys_not_seen ks (seen ++ [k]) b hb (by simp [he]))
        simp only [List.findIdx_cons, beq_self_eq_true, cond_true, hbk, cond_false]
        exact Nat.succ_pos _

theorem pair_sublist_of_mem {α : Type} :
    ∀ (l : List α) (a b : α), a ∈ l → b ∈ l → a ≠ b →
      List.Sublist [a, b] l ∨ List.Sublist [b, a] l := by
  intro l
  induction l with
  | nil => intro a b ha; cases ha
  | cons x xs ih =>
    intro a b ha hb hne
    rcases List.mem_cons.mp ha with rfl | ha'
    · have hb' : b ∈ xs := by
        rcases List.mem_cons.mp hb with rfl | h
        · exact absurd rfl hne
        · exact h
      exact Or.inl ((List.singleton_sublist.mpr hb').cons₂ a)
    · rcases List.mem_cons.mp hb with rfl | hb'
      · exact Or.inr ((List.singleton_sublist.mpr ha').cons₂ b)
      · exact (ih a b ha' hb' hne).imp (List.Sublist.cons x) (List.Sublist.cons x)

theorem bumpFold_pair_sublist (ps : List (String × ℕ)) (p q : String × ℕ)
    (hp : p ∈ bumpFold [] ps) (hq : q ∈ bumpFold [] ps)
    (hlt : (ps.map Prod.fst).findIdx (fun x => x == p.1) <
           (ps.map Prod.fst).findIdx (fun x => x == q.1)) :
    List.Sublist [p, q] (bumpFold [] ps) := by
  have hne : p ≠ q := by
    intro h
    rw [h] at hlt
    exact lt_irrefl _ hlt
  rcases pair_sublist_of_mem _ p q hp hq hne with h | h
  · exact h
  · exfalso
    have hkeys : List.Sublist [q.1, p.1] ((bumpFold [] ps).map Prod.fst) := by
      simpa using h.map Prod.fst
    rw [bumpFold_keys ps [] ] at hkeys
    simp only [List.map_nil, List.nil_append] at hkeys
    exact absurd hlt (not_lt.mpr (le_of_lt (newKeys_order _ _ _ _ hkeys)))

theorem fallbackPart_success_length (env : SearchEnv) (qe : List ℚ) (k : ℕ)
    (recs : List SearchResult) (h : fallbackPart env qe k = BertResponse.success recs) :
    recs.length ≤ k := by
  unfold fallbackPart at h
  cases hc : env.candidatesResult with
  | error e => rw [hc] at h; cases h
  | ok cands =>
    rw [hc] at h
    dsimp only at h
    by_cases hemp : cands.isEmpty
    · rw [if_pos hemp] at h
      injection h with h1
      subst h1
      simp
    · rw [if_neg hemp] at h
      injection h with h1
      subst h1
      exact List.length_take_le k _

/-! ### Claim theorems -/

/-- C1: the recommendation score of every candidate article is exactly
categoryScore + sourceScore + recencyScore, with categoryScore `(3 - i) * 10`
at 0-indexed rank `i` of the top-categories list (else 0), sourceScore
`(3 - i) * 5` at rank `i` of the top-sources list (else 0), and recencyScore
`max(0, 24 - ageInHours)`; and with
topCategories = ["technology", "sports", "world"], category "sports" earns
categoryScore exactly 20. -/
theorem score_is_sum_of_components :
    (∀ (topCats topSrcs : List String) (a : Article) (nowMs : ℚ),
      articleScore topCats topSrcs a nowMs =
        categoryScoreSpec topCats a.category + sourceScoreSpec topSrcs a.source +
          recencyScoreSpec a.published_at nowMs) ∧
    categoryScoreSpec ["technology", "sports", "world"] "sports" = 20 := by
  constructor
  · intro topCats topSrcs a nowMs
    unfold articleScore categoryScoreSpec sourceScoreSpec recencyScoreSpec
    cases hc : topCats.findIdx? (fun c => c == a.category) <;>
      cases hs : topSrcs.findIdx? (fun s => s == a.source) <;>
      simp only [] <;> ring
  · have h : List.findIdx? (fun c => c == "sports")
        ["technology", "sports", "world"] = some 1 := by decide
    unfold categoryScoreSpec
    rw [h]
    norm_num

/-- C2: the aggregator weights each activity additively by kind
(view 1, click 3, bookmark 5, dwell over 30s 2, dwell up to 30s 1), keyed by
the record's category and source; on the spec's example activities it
computes category weights technology 4 and sports 5, and
topCategories = ["sports", "technology"]. -/
theorem aggregator_weights_and_example :
    (∀ (aid : String) (d : ℚ) (c s : String),
      activityWeight ⟨aid, "view", d, c, s⟩ = 1 ∧
      activityWeight ⟨aid, "click", d, c, s⟩ = 3 ∧
      activityWeight ⟨aid, "bookmark", d, c, s⟩ = 5 ∧
      (30 < d → activityWeight ⟨aid, "dwell", d, c, s⟩ = 2) ∧
      (d ≤ 30 → activityWeight ⟨aid, "dwell", d, c, s⟩ = 1)) ∧
    (analyzePreferences exampleActivities).1 = [("technology", 4), ("sports", 5)] ∧
    topLabels (analyzePreferences exampleActivities).1 = ["sports", "technology"] := by
  refine ⟨fun aid d c s => ⟨?_, ?_, ?_, ?_, ?_⟩, by decide, by decide⟩
  · simp [activityWeight]
  · simp [activityWeight]
  · simp [activityWeight]
  · intro h
    simp [activityWeight, h]
  · intro h
    simp [activityWeight, not_lt.mpr h]

theorem aggregator_weights_and_example_witness :
    activityWeight ⟨"x", "dwell", 45, "c", "s"⟩ = 2 ∧
    activityWeight ⟨"x", "dwell", 10, "c", "s"⟩ = 1 :=
  ⟨(aggregator_weights_and_example.1 "x" 45 "c" "s").2.2.2.1 (by decide),
   (aggregator_weights_and_example.1 "x" 10 "c" "s").2.2.2.2 (by decide)⟩

/-- C10: every activity record that is not a click, not a bookmark, and not
a dwell longer than 30 seconds gets weight exactly 1 (the default), whatever
its activity kind; consequently every accumulated weight in both preference
maps is strictly positive. -/
theorem default_weight_and_positive_weights :
    (∀ a : UserActivity,
      a.activity_type ≠ "click" → a.activity_type ≠ "bookmark" →
      ¬(a.activity_type = "dwell" ∧ 30 < a.dwell_time) →
      activityWeight a = 1) ∧
    (∀ acts : List UserActivity,
      (∀ p ∈ (analyzePreferences acts).1, 0 < p.2) ∧
      (∀ p ∈ (analyzePreferences acts).2, 0 < p.2)) := by
  constructor
  · intro a h1 h2 h3
    unfold activityWeight
    rw [if_neg h1, if_neg h2, if_neg h3]
  · intro acts
    exact analyzePreferences_loop_pos acts [] [] (by simp) (by simp)

theorem default_weight_and_positive_weights_witness :
    activityWeight ⟨"x", "share", 99, "c", "s"⟩ = 1 ∧
    0 < (("technology", 4) : String × ℕ).2 :=
  ⟨default_weight_and_positive_weights.1 ⟨"x", "share", 99, "c", "s"⟩
      (by decide) (by decide) (by decide),
   (default_weight_and_positive_weights.2 exampleActivities).1 ("technology", 4)
      (by decide)⟩

/-- C8 as stated is false on the code: the transform lowercases the title
before the substring test, so the returned article made from the title
"SPORT update" is classified "sports" although that title does not contain
the (case-sensitive) substring "sport". -/
theorem classify_substring_counterexample :
    ((transformArticles (fun u => u)
        [⟨"SPORT update", "d", "u", "i", "s", "p", "c"⟩]).map
          (fun t => t.category)) = ["sports"] ∧
    jsIncludes "SPORT update" "sport" = false := by
  decide

/-- C8 amended: every returned article's category is "sports" exactly when
the lowercased title contains the substring "sport", and "technology"
exactly when it does not. -/
theorem classify_lowercased_substring :
    ∀ (btoaId : String → String) (raws : List NewsAPIArticle)
      (t : TransformedArticle), t ∈ transformArticles btoaId raws →
      ((t.category = "sports") ↔ jsIncludes (jsToLower t.title) "sport" = true) ∧
      ((t.category = "technology") ↔ jsIncludes (jsToLower t.title) "sport" = false) := by
  intro btoaId raws t ht
  simp only [transformArticles, List.mem_map] at ht
  obtain ⟨a, _, rfl⟩ := ht
  show (classifyCategory a.title = "sports" ↔ _) ∧
    (classifyCategory a.title = "technology" ↔ _)
  unfold classifyCategory
  by_cases h : jsIncludes (jsToLower a.title) "sport" = true
  · rw [if_pos h]
    simp [h]
  · rw [if_neg h]
    simp [Bool.not_eq_true] at h
    simp [h]

theorem classify_lowercased_substring_witness :
    (((⟨"i", "SPORT update", "d", "c", "u", "i2", "s", "sports", "en", "p"⟩ :
        TransformedArticle).category = "sports") ↔
      jsIncludes (jsToLower (⟨"i", "SPORT update", "d", "c", "u", "i2", "s",
        "sports", "en", "p"⟩ : TransformedArticle).title) "sport" = true) ∧
    (((⟨"i", "SPORT update", "d", "c", "u", "i2", "s", "sports", "en", "p"⟩ :
        TransformedArticle).category = "technology") ↔
      jsIncludes (jsToLower (⟨"i", "SPORT update", "d", "c", "u", "i2", "s",
        "sports", "en", "p"⟩ : TransformedArticle).title) "sport" = false) :=
  classify_lowercased_substring (fun _ => "i")
    [⟨"SPORT update", "d", "u", "i2", "s", "p", "c"⟩] _ (by decide)

/-- C9: a recommendation request with no Authorization header is answered by
the generic 500 internal-server-error response, never by the 401 branch:
dereferencing the absent header throws, and the outer catch produces the
generic error. -/
theorem missing_auth_header_yields_500 :
    ∀ env : RecEnv,
      generateRecommendations env none = RecResponse.internalError ∧
      generateRecommendations env none ≠ RecResponse.unauthorized := by
  intro env
  have h : generateRecommendations env none = RecResponse.internalError := rfl
  refine ⟨h, ?_⟩
  rw [h]
  intro hc
  cases hc

/-- C5: a search request whose query is empty or whitespace-only is answered
with a successful empty result list, and the request performs no external
call at all — in particular the embedding provider is never invoked. -/
theorem blank_query_empty_no_embed :
    ∀ (env : SearchEnv) (body : RequestBody),
      jsTrim (body.query.getD "") = "" →
      bertSearch env body = (BertResponse.success [], []) ∧
      ∀ s : String, ExtCall.embed s ∉ (bertSearch env body).2 := by
  intro env body h
  have hb : bertSearch env body = (BertResponse.success [], []) := by
    unfold bertSearch
    rw [h]
    simp
  refine ⟨hb, ?_⟩
  rw [hb]
  intro s hs
  cases hs

theorem blank_query_empty_no_embed_witness :
    bertSearch
        ⟨Except.ok [1], false, [], fun _ _ => 0, Except.ok [], fun _ _ => Except.ok 0⟩
        ⟨some "   ", none⟩ = (BertResponse.success [], []) :=
  (blank_query_empty_no_embed _ _ (by decide)).1

/-- C3: no article whose identifier is in the already-interacted set ever
appears in the recommendation output, for all inputs. -/
theorem interacted_never_recommended :
    ∀ (interactedIds : List String) (recent : List Article)
      (topCats topSrcs : List String) (nowMs : ℚ) (x : ScoredArticle),
      x ∈ recommendArticles interactedIds recent topCats topSrcs nowMs →
      x.id ∉ interactedIds := by
  intro ids recent tc ts now x hx
  unfold recommendArticles at hx
  have hx1 := List.take_subset _ _ hx
  rw [List.mem_insertionSort] at hx1
  rw [List.mem_map] at hx1
  obtain ⟨a, ha, rfl⟩ := hx1
  rw [List.mem_filter] at ha
  have h2 := ha.2
  simp only [Bool.not_eq_eq_eq_not, Bool.not_true] at h2
  intro hmem
  rw [List.contains_eq_any_beq] at h2
  simp at h2
  exact h2 _ hmem rfl

theorem interacted_never_recommended_witness :
    (⟨⟨"a", "t", "c", "s", 0⟩, 24⟩ : ScoredArticle).id ∉ ["b"] :=
  interacted_never_recommended ["b"] [⟨"a", "t", "c", "s", 0⟩] [] [] 0 _
    (by norm_num [recommendArticles, articleScore, List.insertionSort,
      List.orderedInsert])

/-- C7: the recommendation list never exceeds 20 entries whatever the
candidate pool, and every successful search response — server-side RPC path,
in-memory fallback path, or the degenerate empty answers — has at most
`top_k` entries. -/
theorem output_length_bounds :
    (∀ (interactedIds : List String) (recent : List Article)
        (topCats topSrcs : List String) (nowMs : ℚ),
      (recommendArticles interactedIds recent topCats topSrcs nowMs).length ≤ 20) ∧
    (∀ (env : SearchEnv) (body : RequestBody) (recs : List SearchResult)
        (trace : List ExtCall),
      bertSearch env body = (BertResponse.success recs, trace) →
      recs.length ≤ body.top_k.getD 10) := by
  constructor
  · intro ids recent tc ts now
    unfold recommendArticles
    exact List.length_take_le 20 _
  · intro env body recs trace h
    simp only [bertSearch] at h
    by_cases hq : jsTrim (body.query.getD "") = ""
    · rw [if_pos hq] at h
      injection h with h1 h2
      injection h1 with h1
      subst h1
      simp
    · rw [if_neg hq] at h
      cases hemb : env.embedResult with
      | error e =>
        rw [hemb] at h
        dsimp only at h
        injection h with h1 h2
        cases h1
      | ok qe =>
        rw [hemb] at h
        dsimp only at h
        by_cases hrpc : env.rpcOk
        · rw [if_pos hrpc] at h
          dsimp only at h
          by_cases hlen :
              0 < (matchNews env.dist env.dbRows qe (body.top_k.getD 10)).length
          · rw [if_pos hlen] at h
            injection h with h1 h2
            injection h1 with h1
            subst h1
            unfold matchNews
            exact List.length_take_le _ _
          · rw [if_neg hlen] at h
            injection h with h1 h2
            exact fallbackPart_success_length env qe _ recs h1
        · rw [if_neg hrpc] at h
          dsimp only at h
          injection h with h1 h2
          exact fallbackPart_success_length env qe _ recs h1

theorem output_length_bounds_witness :
    ([] : List SearchResult).length ≤
      ((⟨some "hello", some 5⟩ : RequestBody).top_k.getD 10) :=
  output_length_bounds.2
    ⟨Except.ok [1], false, [], fun _ _ => 0, Except.ok [], fun _ _ => Except.ok 0⟩
    ⟨some "hello", some 5⟩ []
    [ExtCall.embed "hello", ExtCall.rpc, ExtCall.fetchCandidates] (by decide)

/-- C6 as stated is false on the code: a failed similarity degrades to
score 0, not to a minimum — here the candidate whose computation throws
ranks strictly above a candidate whose similarity was computed successfully
as -1, so the failed candidate is not "at or below every candidate whose
similarity was computed successfully". -/
theorem fallback_failure_rank_counterexample :
    cexSim [1] [1, 2] = Except.error "vectors must be of equal length" ∧
    cexSim [1] [-1] = Except.ok (-1) ∧
    sortedFallback cexSim [1] [cexA, cexB] =
      [resultOf cexA 0, resultOf cexB (-1)] ∧
    ¬ ((sortedFallback cexSim [1] [cexA, cexB]).findIdx (fun x => x.id == "B") ≤
        (sortedFallback cexSim [1] [cexA, cexB]).findIdx (fun x => x.id == "A")) := by
  decide

/-- C6 amended: a per-candidate similarity failure does not abort the batch —
the failed candidate stays in the scored list with score 0 — and the failed
candidate ranks strictly below every candidate whose similarity was computed
successfully as a positive value (candidates with negative computed
similarity may rank below it). -/
theorem fallback_failure_scored_zero :
    ∀ (sim : List ℚ → List ℚ → Except String ℚ) (qe : List ℚ)
      (cands : List SearchCandidate) (A B : SearchCandidate)
      (ea eb : List ℚ) (msg : String) (s : ℚ),
      A ∈ cands → A.embedding = some ea → sim qe ea = Except.error msg →
      B ∈ cands → B.embedding = some eb → sim qe eb = Except.ok s → 0 < s →
      resultOf A 0 ∈ sortedFallback sim qe cands ∧
      resultOf B s ∈ sortedFallback sim qe cands ∧
      ∀ i j : Fin (sortedFallback sim qe cands).length,
        (sortedFallback sim qe cands).get i = resultOf A 0 →
        (sortedFallback sim qe cands).get j = resultOf B s →
        j < i := by
  intro sim qe cands A B ea eb msg s hA hAe hAsim hB hBe hBsim hs
  have hmemA : resultOf A 0 ∈ fallbackScores sim qe cands := by
    unfold fallbackScores
    rw [List.mem_map]
    refine ⟨A, List.mem_filter.mpr ⟨hA, by rw [hAe]; rfl⟩, ?_⟩
    simp only [hAe, hAsim]
    rfl
  have hmemB : resultOf B s ∈ fallbackScores sim qe cands := by
    unfold fallbackScores
    rw [List.mem_map]
    refine ⟨B, List.mem_filter.mpr ⟨hB, by rw [hBe]; rfl⟩, ?_⟩
    simp only [hBe, hBsim]
    rfl
  have hsorted : (sortedFallback sim qe cands).Sorted byScoreDescR := by
    unfold sortedFallback
    exact List.sorted_insertionSort _ _
  refine ⟨?_, ?_, ?_⟩
  · unfold sortedFallback
    rw [List.mem_insertionSort]
    exact hmemA
  · unfold sortedFallback
    rw [List.mem_insertionSort]
    exact hmemB
  · intro i j hi hj
    rcases lt_trichotomy j i with h | h | h
    · exact h
    · exfalso
      subst h
      have heq : resultOf A 0 = resultOf B s := hi.symm.trans hj
      have h0 : (0 : ℚ) = s := congrArg SearchResult.score heq
      exact absurd h0.symm (ne_of_gt hs)
    · exfalso
      have hrel := List.Sorted.rel_get_of_lt hsorted h
      rw [hj, hi] at hrel
      have hs0 : s ≤ 0 := hrel
      exact absurd hs (not_lt.mpr hs0)

theorem fallback_failure_scored_zero_witness :
    resultOf cexA 0 ∈ sortedFallback cexSim [1] [cexA, cexC] ∧
    resultOf cexC 2 ∈ sortedFallback cexSim [1] [cexA, cexC] ∧
    ∀ i j : Fin (sortedFallback cexSim [1] [cexA, cexC]).length,
      (sortedFallback cexSim [1] [cexA, cexC]).get i = resultOf cexA 0 →
      (sortedFallback cexSim [1] [cexA, cexC]).get j = resultOf cexC 2 →
      j < i :=
  fallback_failure_scored_zero cexSim [1] [cexA, cexC] cexA cexC [1, 2] [1]
    "vectors must be of equal length" 2 (by decide) (by decide) (by decide)
    (by decide) (by decide) (by decide) (by decide)

/-- C4: both preference rankings are ordered by descending accumulated
weight, and the ranking is stable — when two labels carry equal accumulated
weight, the label first encountered in the activity input order comes first
in the ranked entry list (of which the top-3 label list is the prefix
projection). -/
theorem preference_ranking_stable :
    ∀ acts : List UserActivity,
      ((rankedEntries (analyzePreferences acts).1).Sorted byWeightDesc ∧
       (rankedEntries (analyzePreferences acts).2).Sorted byWeightDesc) ∧
      (∀ p q : String × ℕ,
        p ∈ (analyzePreferences acts).1 → q ∈ (analyzePreferences acts).1 →
        p.2 = q.2 →
        firstEncounterIdx (acts.map (fun a => a.article_category)) p.1 <
          firstEncounterIdx (acts.map (fun a => a.article_category)) q.1 →
        List.Sublist [p, q] (rankedEntries (analyzePreferences acts).1)) ∧
      (∀ p q : String × ℕ,
        p ∈ (analyzePreferences acts).2 → q ∈ (analyzePreferences acts).2 →
        p.2 = q.2 →
        firstEncounterIdx (acts.map (fun a => a.article_source)) p.1 <
          firstEncounterIdx (acts.map (fun a => a.article_source)) q.1 →
        List.Sublist [p, q] (rankedEntries (analyzePreferences acts).2)) := by
  intro acts
  refine ⟨⟨?_, ?_⟩, ?_, ?_⟩
  · unfold rankedEntries
    exact List.sorted_insertionSort _ _
  · unfold rankedEntries
    exact List.sorted_insertionSort _ _
  · intro p q hp hq hw hlt
    rw [analyzePreferences_eq] at hp hq
    dsimp only at hp hq
    have hsub : List.Sublist [p, q]
        (bumpFold [] (acts.map fun a => (a.article_category, activityWeight a))) := by
      apply bumpFold_pair_sublist _ p q hp hq
      have hmap : (acts.map (fun a => (a.article_category, activityWeight a))).map
          Prod.fst = acts.map (fun a => a.article_category) := by
        simp [List.map_map]
      rw [hmap]
      exact hlt
    have hr : byWeightDesc p q := le_of_eq hw.symm
    have hpair := List.pair_sublist_insertionSort hr hsub
    rw [rankedEntries, analyzePreferences_eq]
    exact hpair
  · intro p q hp hq hw hlt
    rw [analyzePreferences_eq] at hp hq
    dsimp only at hp hq
    have hsub : List.Sublist [p, q]
        (bumpFold [] (acts.map fun a => (a.article_source, activityWeight a))) := by
      apply bumpFold_pair_sublist _ p q hp hq
      have hmap : (acts.map (fun a => (a.article_source, activityWeight a))).map
          Prod.fst = acts.map (fun a => a.article_source) := by
        simp [List.map_map]
      rw [hmap]
      exact hlt
    have hr : byWeightDesc p q := le_of_eq hw.symm
    have hpair := List.pair_sublist_insertionSort hr hsub
    rw [rankedEntries, analyzePreferences_eq]
    exact hpair

theorem preference_ranking_stable_witness :
    List.Sublist [(("technology", 1) : String × ℕ), ("sports", 1)]
      (rankedEntries (analyzePreferences
        [⟨"a1", "view", 0, "technology", "s1"⟩,
         ⟨"a2", "view", 0, "sports", "s2"⟩]).1) :=
  (preference_ranking_stable
      [⟨"a1", "view", 0, "technology", "s1"⟩,
       ⟨"a2", "view", 0, "sports", "s2"⟩]).2.1
    ("technology", 1) ("sports", 1) (by decide) (by decide) rfl (by decide)
